import Mathlib

set_option maxHeartbeats 1000000

/-!
Shallow embedding of the SMF (Standard MIDI File) validator core of
`midi_file_tester.py`: the byte cursor (`Reader`), the primitive decoders
(big-endian integers, variable-length quantities), the header decoder,
the per-track event decoder and the report aggregator, together with
proofs of the specification claims about them.

Bytes are modelled as `Nat` (the Python `bytes` values are in `[0, 255]`;
hypotheses bound them where a claim needs it).  Python exceptions are
modelled with `Except String`: a raising call site returns `.error msg`
and the translation of each `try/except` handles it explicitly, so every
function is total.  The per-track scan loop is driven by fuel; each
iteration consumes at least one byte of the bounded sub-cursor, so fuel
`chunk.length + 1` is always sufficient (proved below).
-/

/-- Header chunk fields (dataclass `MIDIHeader`). -/
structure MIDIHeader where
  format_type : Nat
  num_tracks : Nat
  division : Nat
  deriving DecidableEq

/-- Per-track statistics counters (dataclass `TrackStats`). -/
structure TrackStats where
  note_on : Nat := 0
  note_off : Nat := 0
  dangling_notes : Nat := 0
  program_changes : Nat := 0
  controllers : Nat := 0
  pitch_bends : Nat := 0
  aftertouch_poly : Nat := 0
  aftertouch_ch : Nat := 0
  sysex : Nat := 0
  meta : Nat := 0
  tempo_events : Nat := 0
  time_sig_events : Nat := 0
  key_sig_events : Nat := 0
  tempo_values : List Nat := []
  deriving DecidableEq

/-- Per-track result (dataclass `TrackReport`). -/
structure TrackReport where
  index : Nat
  length_declared : Nat := 0
  length_parsed : Nat := 0
  has_end_of_track : Bool := false
  errors : List String := []
  warnings : List String := []
  error_locs : List (String × Nat) := []
  warning_locs : List (String × Nat) := []
  stats : TrackStats := {}
  deriving DecidableEq

/-- Whole-file result (dataclass `FileReport`). -/
structure FileReport where
  path : String
  ok : Bool := false
  header : Option MIDIHeader := none
  tracks : List TrackReport := []
  errors : List String := []
  warnings : List String := []
  error_locs : List (String × Nat) := []
  warning_locs : List (String × Nat) := []
  bytes_size : Nat := 0
  deriving DecidableEq

/-- The bytes of the literal tag `MThd`. -/
def MAGIC_MTHD : List Nat := [0x4D, 0x54, 0x68, 0x64]

/-- The bytes of the literal tag `MTrk`. -/
def MAGIC_MTRK : List Nat := [0x4D, 0x54, 0x72, 0x6B]

/-- Sequential bounds-checked byte cursor (class `Reader`). -/
structure Reader where
  data : List Nat
  pos : Nat
  deriving DecidableEq

/-- Model of `self.len = len(data)` (the buffer is immutable, so this is a function). -/
def Reader.len (r : Reader) : Nat := r.data.length

/-- Model of `Reader.remaining`. -/
def Reader.remaining (r : Reader) : Nat := r.len - r.pos

/-- Model of `Reader.read`: returns the next `n` bytes and advances, or raises
`EOFError("Unexpected EOF")` (modelled as `.error`) without advancing. -/
def Reader.read (r : Reader) (n : Nat) : Except String (List Nat × Reader) :=
  if r.pos + n > r.len then .error "Unexpected EOF"
  else .ok ((r.data.drop r.pos).take n, { r with pos := r.pos + n })

/-- Model of `read_uint16_be`. -/
def read_uint16_be (b : List Nat) : Nat := (b.getD 0 0) <<< 8 ||| b.getD 1 0

/-- Model of `read_uint32_be`. -/
def read_uint32_be (b : List Nat) : Nat :=
  (b.getD 0 0) <<< 24 ||| (b.getD 1 0) <<< 16 ||| (b.getD 2 0) <<< 8 ||| b.getD 3 0

/-- The body of `read_vlq`: the `for _ in range(4)` loop, with the loop
counter as fuel.  Returns the result together with the cursor, which has
consumed exactly the bytes read so far even when an exception is raised. -/
def readVlqAux : Nat → Reader → Nat → Except String Nat × Reader
  | 0, r, _ => (.error "VLQ demasiado largo (>4 bytes)", r)
  | fuel + 1, r, val =>
    match r.read 1 with
    | .error e => (.error e, r)
    | .ok (bs, r1) =>
      let byte := bs.headD 0
      let val1 := (val <<< 7) ||| (byte &&& 0x7F)
      if byte &&& 0x80 = 0 then (.ok val1, r1) else readVlqAux fuel r1 val1

/-- Model of `read_vlq`. -/
def read_vlq (r : Reader) : Except String Nat × Reader := readVlqAux 4 r 0

/-- The SMPTE frames-per-second computation of `validate_division`:
the negated two's-complement value of the upper byte of `division`. -/
def smpte_fps (div : Nat) : Int :=
  let fps0 := (div >>> 8) &&& 0xFF
  let fps1 : Int := if fps0 ≥ 0x80 then (fps0 : Int) - 0x100 else (fps0 : Int)
  let fps2 : Int := -fps1
  fps2

/-- Model of `rep.errors.append(msg); rep.error_locs.append((msg, off))`. -/
def fileErr (rep : FileReport) (msg : String) (off : Nat) : FileReport :=
  { rep with errors := rep.errors ++ [msg], error_locs := rep.error_locs ++ [(msg, off)] }

/-- Warning append where the `warnings` message and the `warning_locs`
message differ (as in the SMPTE-fps and long-header warnings). -/
def fileWarn2 (rep : FileReport) (msg locmsg : String) (off : Nat) : FileReport :=
  { rep with warnings := rep.warnings ++ [msg], warning_locs := rep.warning_locs ++ [(locmsg, off)] }

/-- Model of `validate_division`. -/
def validate_division (div : Nat) (rep : FileReport) : FileReport :=
  if div &&& 0x8000 ≠ 0 then
    let fps := smpte_fps div
    let tpf := div &&& 0xFF
    let rep1 :=
      if fps ∉ ([24, 25, 29, 30] : List Int) then
        fileWarn2 rep s!"SMPTE fps inusual: {fps}" "SMPTE fps inusual" 0
      else rep
    if tpf = 0 then fileErr rep1 "Ticks/frame=0 inválido" 0 else rep1
  else
    if div ≤ 0 then fileErr rep "Division PPQN debe ser >0" 0 else rep

/-- The tail of `parse_header` after the 6 fixed bytes (and any extra
header bytes) have been read: the format, track-count and division
checks, which never abort. -/
def finish_header (fmt ntr div : Nat) (r : Reader) (rep : FileReport) :
    Option MIDIHeader × FileReport × Reader :=
  let rep1 := if fmt ≠ 0 ∧ fmt ≠ 1 ∧ fmt ≠ 2 then fileErr rep s!"Formato desconocido: {fmt}" r.pos else rep
  let rep2 := if ntr = 0 then fileErr rep1 "Número de pistas=0 inválido" r.pos else rep1
  let rep3 := validate_division div rep2
  (some ⟨fmt, ntr, div⟩, rep3, r)

/-- Model of `parse_header`.  The `try/except` is modelled by handling every
`.error` of a read explicitly with the `"Error cabecera"` diagnostic. -/
def parse_header (r : Reader) (rep : FileReport) : Option MIDIHeader × FileReport × Reader :=
  match r.read 4 with
  | .error e => (none, fileErr rep s!"Error cabecera: {e}" r.pos, r)
  | .ok (tag, r1) =>
    if tag ≠ MAGIC_MTHD then (none, fileErr rep "No MThd al inicio" 0, r1)
    else
      match r1.read 4 with
      | .error e => (none, fileErr rep s!"Error cabecera: {e}" r1.pos, r1)
      | .ok (hlb, r2) =>
        let hlen := read_uint32_be hlb
        if hlen < 6 then (none, fileErr rep "Cabecera demasiado corta" r2.pos, r2)
        else
          match r2.read 6 with
          | .error e => (none, fileErr rep s!"Error cabecera: {e}" r2.pos, r2)
          | .ok (hb, r3) =>
            let fmt := read_uint16_be (hb.take 2)
            let ntr := read_uint16_be ((hb.drop 2).take 2)
            let div := read_uint16_be ((hb.drop 4).take 2)
            if hlen > 6 then
              match r3.read (hlen - 6) with
              | .error e => (none, fileErr rep s!"Error cabecera: {e}" r3.pos, r3)
              | .ok (_, r4) =>
                let rep1 := fileWarn2 rep s!"Cabecera con {hlen} bytes (estándar=6)" s!"Cabecera {hlen} bytes" r4.pos
                finish_header fmt ntr div r4 rep1
            else finish_header fmt ntr div r3 rep

/-- Helper for `tr.stats.<field> += 1` and friends: update the statistics record in
place, leaving every other field of the report unchanged. -/
def withStats (tr : TrackReport) (f : TrackStats → TrackStats) : TrackReport :=
  { tr with stats := f tr.stats }

/-- Model of `_err`. -/
def _err (tr : TrackReport) (msg : String) (abs_off : Nat) : TrackReport :=
  { tr with errors := tr.errors ++ [msg], error_locs := tr.error_locs ++ [(msg, abs_off)] }

/-- Model of `_warn`. -/
def _warn (tr : TrackReport) (msg : String) (abs_off : Nat) : TrackReport :=
  { tr with warnings := tr.warnings ++ [msg], warning_locs := tr.warning_locs ++ [(msg, abs_off)] }

/-- Model of `_check_data_range`: one error at most, at the first value `> 127`. -/
def _check_data_range (vals : List Nat) (tr : TrackReport) (tindex : Nat) (ctx : String)
    (abs_off : Nat) : TrackReport :=
  match vals.find? (fun v => decide (127 < v)) with
  | some v => _err tr s!"Pista {tindex}: dato >127 en {ctx}: {v}" abs_off
  | none => tr

/-- Point update of the active-note dictionary (`active[key] = v`;
`active.get(key, 0)` is modelled by the function being total with
default value `0`). -/
def updFn (a : Nat × Nat → Int) (k : Nat × Nat) (v : Int) : Nat × Nat → Int :=
  fun x => if x = k then v else a x

/-- Outcome of the channel-voice branch of the scan loop body:
continue scanning, break out of the loop, or escape with an exception
to the outer `try/except` of `parse_track` (provably unreachable). -/
inductive CVOut where
  | cont (tr : TrackReport) (lr : Reader) (active : Nat × Nat → Int)
  | brk (tr : TrackReport) (lr : Reader)
  | esc (tr : TrackReport) (e : String)

/-- Outcome of the meta / sysex branches of the scan loop body. -/
inductive HandlerOut where
  | cont (tr : TrackReport) (lr : Reader)
  | brk (tr : TrackReport) (lr : Reader)
  | esc (tr : TrackReport) (e : String)

/-- Outcome of one full iteration of the scan loop. -/
inductive StepOut where
  | cont (tr : TrackReport) (lr : Reader) (status : Option Nat) (active : Nat × Nat → Int)
  | fin (tr : TrackReport) (lr : Reader)
  | esc (tr : TrackReport) (e : String)

/-- Final outcome of the scan loop. -/
inductive ScanEnd where
  | fin (tr : TrackReport) (lr : Reader)
  | esc (tr : TrackReport) (e : String)

/-- The `0x80 <= status <= 0xEF` (channel voice message) branch of the
scan loop body of `parse_track`. -/
def handleChannelVoice (status : Nat) (lr : Reader) (tindex start : Nat) (pair_notes : Bool)
    (tr : TrackReport) (active : Nat × Nat → Int) : CVOut :=
  let ch := status &&& 0x0F
  let mt := status &&& 0xF0
  let dl := if mt = 0xC0 ∨ mt = 0xD0 then 1 else 2
  if lr.remaining < dl then
    .brk (_err tr s!"Pista {tindex}: datos insuficientes para {status}." (start + lr.pos)) lr
  else
    match lr.read dl with
    | .error e => .esc tr e
    | .ok (data, lr1) =>
      let tr1 := _check_data_range data tr tindex s!"msg {status}" (start + lr1.pos - dl)
      if mt = 0x80 then
        let tr2 := withStats tr1 (fun st => { st with note_off := st.note_off + 1 })
        let active1 :=
          if pair_notes then
            let key := (ch, data.getD 0 0)
            updFn active key (max 0 (active key - 1))
          else active
        .cont tr2 lr1 active1
      else if mt = 0x90 then
        let vel := if dl = 2 then data.getD 1 0 else 0
        if vel = 0 then
          let tr2 := withStats tr1 (fun st => { st with note_off := st.note_off + 1 })
          let active1 :=
            if pair_notes then
              let key := (ch, data.getD 0 0)
              updFn active key (max 0 (active key - 1))
            else active
          .cont tr2 lr1 active1
        else
          let tr2 := withStats tr1 (fun st => { st with note_on := st.note_on + 1 })
          let active1 :=
            if pair_notes then
              let key := (ch, data.getD 0 0)
              updFn active key (active key + 1)
            else active
          .cont tr2 lr1 active1
      else if mt = 0xA0 then
        .cont (withStats tr1 (fun st => { st with aftertouch_poly := st.aftertouch_poly + 1 })) lr1 active
      else if mt = 0xB0 then
        .cont (withStats tr1 (fun st => { st with controllers := st.controllers + 1 })) lr1 active
      else if mt = 0xC0 then
        .cont (withStats tr1 (fun st => { st with program_changes := st.program_changes + 1 })) lr1 active
      else if mt = 0xD0 then
        .cont (withStats tr1 (fun st => { st with aftertouch_ch := st.aftertouch_ch + 1 })) lr1 active
      else if mt = 0xE0 then
        .cont (withStats tr1 (fun st => { st with pitch_bends := st.pitch_bends + 1 })) lr1 active
      else .cont tr1 lr1 active

/-- The `status == 0xFF` (meta event) branch of the scan loop body of
`parse_track`. -/
def handleMeta (lr : Reader) (tindex start : Nat) (strict : Bool) (tr : TrackReport) : HandlerOut :=
  if lr.remaining < 2 then .brk (_err tr s!"Pista {tindex}: meta truncado." (start + lr.pos)) lr
  else
    match lr.read 1 with
    | .error e => .esc tr e
    | .ok (mb, lr1) =>
      let mtype := mb.headD 0
      match read_vlq lr1 with
      | (.error e, lr2) => .brk (_err tr s!"Pista {tindex}: meta VLQ inválido: {e}" (start + lr2.pos)) lr2
      | (.ok ln, lr2) =>
        if lr2.remaining < ln then
          .brk (_err tr s!"Pista {tindex}: meta datos truncados {mtype}." (start + lr2.pos)) lr2
        else
          match lr2.read ln with
          | .error e => .esc tr e
          | .ok (md, lr3) =>
            let trm := withStats tr (fun st => { st with meta := st.meta + 1 })
            if mtype = 0x2F then
              let tra := if ln ≠ 0 then _err trm s!"Pista {tindex}: End-of-Track len !=0." (start + lr3.pos - ln) else trm
              let trb := { tra with has_end_of_track := true }
              if lr3.remaining > 0 then
                let rem := lr3.remaining
                let trc := _warn trb s!"Pista {tindex}: bytes extra tras EOT ({rem})." (start + lr3.pos)
                match lr3.read rem with
                | .error e => .esc trc e
                | .ok (_, lr4) => .brk trc lr4
              else .cont trb lr3
            else if mtype = 0x51 then
              if ln ≠ 3 then .cont (_err trm s!"Pista {tindex}: Tempo len {ln} (3)." (start + lr3.pos - ln)) lr3
              else
                let us := (md.getD 0 0) <<< 16 ||| (md.getD 1 0) <<< 8 ||| md.getD 2 0
                let tra := withStats trm (fun st => { st with
                  tempo_events := st.tempo_events + 1,
                  tempo_values := st.tempo_values ++ [us] })
                if strict = true ∧ ¬ (10000 ≤ us ∧ us ≤ 2000000) then
                  .cont (_warn tra s!"Pista {tindex}: Tempo inusual {us} us/qn." (start + lr3.pos - 3)) lr3
                else .cont tra lr3
            else if mtype = 0x58 then
              if ln ≠ 4 then .cont (_err trm s!"Pista {tindex}: TimeSig len {ln} (4)." (start + lr3.pos - ln)) lr3
              else
                let nn := md.getD 0 0
                let dd := md.getD 1 0
                let tra := if nn = 0 ∨ dd > 7 then
                    _warn trm s!"Pista {tindex}: compás inusual nn={nn}, dd={dd}." (start + lr3.pos - 4)
                  else trm
                .cont (withStats tra (fun st => { st with time_sig_events := st.time_sig_events + 1 })) lr3
            else if mtype = 0x59 then
              if ln ≠ 2 then .cont (_err trm s!"Pista {tindex}: KeySig len {ln} (2)." (start + lr3.pos - ln)) lr3
              else .cont (withStats trm (fun st => { st with key_sig_events := st.key_sig_events + 1 })) lr3
            else .cont trm lr3

/-- The `status in (0xF0, 0xF7)` (system exclusive) branch of the scan
loop body of `parse_track`. -/
def handleSysex (lr : Reader) (tindex start : Nat) (tr : TrackReport) : HandlerOut :=
  match read_vlq lr with
  | (.error e, lr1) => .brk (_err tr s!"Pista {tindex}: SysEx VLQ inválido: {e}" (start + lr1.pos)) lr1
  | (.ok ln, lr1) =>
    if lr1.remaining < ln then .brk (_err tr s!"Pista {tindex}: SysEx truncado." (start + lr1.pos)) lr1
    else
      match lr1.read ln with
      | .error e => .esc tr e
      | .ok (_, lr2) => .cont (withStats tr (fun st => { st with sysex := st.sysex + 1 })) lr2

/-- Dispatch on the (running) status byte: lines `if 0x80<=status<=0xEF ...
elif status==0xFF ... elif status in (0xF0,0xF7) ... else` of the scan
loop body, including the (unreachable) `status is None` check. -/
def scanDispatch (tindex start : Nat) (pair_notes strict : Bool) (status : Option Nat)
    (active : Nat × Nat → Int) (tr : TrackReport) (lr : Reader) : StepOut :=
  match status with
  | none => .fin (_err tr s!"Pista {tindex}: status indefinido." (start + lr.pos)) lr
  | some s =>
    if 0x80 ≤ s ∧ s ≤ 0xEF then
      match handleChannelVoice s lr tindex start pair_notes tr active with
      | .cont tr2 lr2 a2 => .cont tr2 lr2 (some s) a2
      | .brk tr2 lr2 => .fin tr2 lr2
      | .esc tr2 e => .esc tr2 e
    else if s = 0xFF then
      match handleMeta lr tindex start strict tr with
      | .cont tr2 lr2 => .cont tr2 lr2 (some s) active
      | .brk tr2 lr2 => .fin tr2 lr2
      | .esc tr2 e => .esc tr2 e
    else if s = 0xF0 ∨ s = 0xF7 then
      match handleSysex lr tindex start tr with
      | .cont tr2 lr2 => .cont tr2 lr2 (some s) active
      | .brk tr2 lr2 => .fin tr2 lr2
      | .esc tr2 e => .esc tr2 e
    else .fin (_err tr s!"Pista {tindex}: status desconocido {s}." (start + lr.pos)) lr

/-- One full iteration of the `while local.remaining() > 0` scan loop of
`parse_track` (delta-time VLQ, status byte / running status, dispatch). -/
def scanStep (tindex start : Nat) (pair_notes strict : Bool) (lr : Reader)
    (status : Option Nat) (active : Nat × Nat → Int) (tr : TrackReport) : StepOut :=
  let ev_start := lr.pos
  match read_vlq lr with
  | (.error e, lrE) => .fin (_err tr s!"Pista {tindex}: VLQ inválido: {e}" (start + ev_start)) lrE
  | (.ok _, lr1) =>
    if lr1.remaining = 0 then .fin tr lr1
    else
      match lr1.read 1 with
      | .error e => .esc tr e
      | .ok (bs, lr2) =>
        let b := bs.headD 0
        if b &&& 0x80 ≠ 0 then
          scanDispatch tindex start pair_notes strict (some b) active tr lr2
        else
          match status with
          | none => .fin (_err tr s!"Pista {tindex}: running status sin previo." (start + lr2.pos - 1)) lr2
          | some _ => scanDispatch tindex start pair_notes strict status active tr { lr2 with pos := lr2.pos - 1 }

/-- The scan loop of `parse_track`, driven by fuel.  Each iteration
consumes at least one byte, so `lr.remaining < fuel` makes the fuel-0
case unreachable (proved in `scanEvents_fin`). -/
def scanEvents (tindex start : Nat) (pair_notes strict : Bool) :
    Nat → Reader → Option Nat → (Nat × Nat → Int) → TrackReport → ScanEnd
  | 0, lr, _, _, tr => .fin tr lr
  | fuel + 1, lr, status, active, tr =>
    if lr.remaining = 0 then .fin tr lr
    else
      match scanStep tindex start pair_notes strict lr status active tr with
      | .cont tr2 lr2 st2 a2 => scanEvents tindex start pair_notes strict fuel lr2 st2 a2 tr2
      | .fin tr2 lr2 => .fin tr2 lr2
      | .esc tr2 e => .esc tr2 e

/-- Model of `parse_track`.  The outer `try/except` is modelled by the explicit
`.error` / `.esc` branches carrying the `"error inesperado"` diagnostic. -/
def parse_track (r : Reader) (tindex : Nat) (_rep : FileReport) (pair_notes strict : Bool) :
    TrackReport × Reader :=
  let tr0 : TrackReport := { index := tindex }
  match r.read 4 with
  | .error e => (_err tr0 s!"Pista {tindex}: error inesperado: {e}" r.pos, r)
  | .ok (tag, r1) =>
    if tag ≠ MAGIC_MTRK then (_err tr0 s!"Pista {tindex}: falta MTrk." (r1.pos - 4), r1)
    else
      match r1.read 4 with
      | .error e => (_err tr0 s!"Pista {tindex}: error inesperado: {e}" r1.pos, r1)
      | .ok (lb, r2) =>
        let tr1 := { tr0 with length_declared := read_uint32_be lb }
        let start := r2.pos
        let end0 := start + tr1.length_declared
        let (tr2, endd) :=
          if end0 > r2.len then
            (_err tr1 s!"Pista {tindex}: longitud declarada excede archivo." start, r2.len)
          else (tr1, end0)
        let chunk := (r2.data.drop start).take (endd - start)
        match scanEvents tindex start pair_notes strict (chunk.length + 1) ⟨chunk, 0⟩ none (fun _ => 0) tr2 with
        | .esc tr3 e => (_err tr3 s!"Pista {tindex}: error inesperado: {e}" r2.pos, r2)
        | .fin tr3 lr2 =>
          let tr4 := { tr3 with length_parsed := lr2.pos }
          let r3 : Reader := { r2 with pos := endd }
          let lp := tr4.length_parsed
          let ld := tr4.length_declared
          let tr5 := if lp ≠ ld then
              _warn tr4 s!"Pista {tindex}: len analizada {lp} != declarada {ld}." endd
            else tr4
          let tr6 := if ¬ tr5.has_end_of_track then
              _err tr5 s!"Pista {tindex}: sin End-of-Track (FF 2F 00)." (endd - 1)
            else tr5
          let tr7 := if pair_notes then withStats tr6 (fun st => { st with dangling_notes := 0 }) else tr6
          (tr7, r3)

/-- The `while r.remaining()>0 and t<header.num_tracks` loop of
`validate_midi_file`, with the number of tracks still allowed as the
structural measure. -/
def tracksLoop (rep : FileReport) (pair_notes strict : Bool) :
    Nat → Nat → Reader → List TrackReport → List TrackReport × Reader
  | 0, _, r, acc => (acc, r)
  | n + 1, t, r, acc =>
    if r.remaining = 0 then (acc, r)
    else
      let (tr, r1) := parse_track r t rep pair_notes strict
      tracksLoop rep pair_notes strict n (t + 1) r1 (acc ++ [tr])

/-- The `try` body of `validate_midi_file`, over the already-read bytes
of the file (reading the file itself is the upstream I/O precondition).
Its `Except` type mirrors the Python `try`; no branch actually raises. -/
def validateCore (path : String) (data : List Nat) (pair_notes strict : Bool) :
    Except String FileReport :=
  let rep0 : FileReport := { path := path, ok := false, bytes_size := data.length }
  let r : Reader := ⟨data, 0⟩
  match parse_header r rep0 with
  | (none, rep1, _) => .ok rep1
  | (some header, rep1, r1) =>
    let rep2 := { rep1 with header := some header }
    let (tracks, _) := tracksLoop rep2 pair_notes strict header.num_tracks 0 r1 []
    let rep3 := { rep2 with tracks := tracks }
    let total_err := rep3.errors.length + (rep3.tracks.map (fun t => t.errors.length)).sum
    .ok { rep3 with ok := total_err == 0 }

/-- Model of `validate_midi_file`: the `try` body plus the `except` handler (the
handler is dead code, proved in the claim about exception safety). -/
def validate_midi_file (path : String) (data : List Nat) (pair_notes strict : Bool) : FileReport :=
  match validateCore path data pair_notes strict with
  | .ok rep => rep
  | .error e => { path := path, ok := false, errors := [s!"Error: {e}"] }

/-- Relation used by the scan-loop invariants: the second cursor is the
first advanced by zero or more bytes within the same buffer. -/
def ReaderLe (lr lr2 : Reader) : Prop :=
  lr2.data = lr.data ∧ lr.pos ≤ lr2.pos ∧ lr2.pos ≤ lr.len

/-- An empty report, used as the (unused) report argument of
`parse_track` in concrete instantiations. -/
def emptyReport : FileReport := { path := "" }

/-- The minimal valid file: `MThd` header (format 0, one track, PPQN 96)
and one `MTrk` chunk holding exactly `00 FF 2F 00`. -/
def minimalMidi : List Nat :=
  [0x4D, 0x54, 0x68, 0x64, 0, 0, 0, 6, 0, 0, 0, 1, 0, 96,
   0x4D, 0x54, 0x72, 0x6B, 0, 0, 0, 4, 0, 0xFF, 0x2F, 0]

/-! ## Basic cursor lemmas -/

theorem Reader.read_eq {r : Reader} {n : Nat} (h : r.pos + n ≤ r.len) :
    r.read n = .ok ((r.data.drop r.pos).take n, { r with pos := r.pos + n }) := by
  unfold Reader.read
  rw [if_neg (by omega)]

theorem Reader.of_read_ok {r : Reader} {n : Nat} {bs : List Nat} {r1 : Reader}
    (h : r.read n = .ok (bs, r1)) :
    r.pos + n ≤ r.len ∧ bs = (r.data.drop r.pos).take n ∧ r1 = { r with pos := r.pos + n } := by
  unfold Reader.read at h
  split at h
  · exact absurd h (by simp)
  · rename_i hc
    refine ⟨by omega, ?_, ?_⟩ <;> · cases h; rfl

theorem Reader.len_eq_of_data_eq {r1 r2 : Reader} (h : r1.data = r2.data) : r1.len = r2.len := by
  unfold Reader.len
  rw [h]

/-! ## VLQ decoder facts -/

theorem readVlqAux_facts (fuel : Nat) : ∀ (r : Reader) (val : Nat),
    ((readVlqAux fuel r val).2.data = r.data) ∧
    (r.pos ≤ (readVlqAux fuel r val).2.pos) ∧
    ((readVlqAux fuel r val).2.pos ≤ r.pos + fuel) ∧
    (r.pos ≤ r.len → (readVlqAux fuel r val).2.pos ≤ r.len) ∧
    (∀ v, (readVlqAux fuel r val).1 = .ok v → r.pos + 1 ≤ (readVlqAux fuel r val).2.pos) := by
  induction fuel with
  | zero =>
    intro r val
    simp [readVlqAux]
  | succ fuel ih =>
    intro r val
    by_cases hc : r.pos + 1 ≤ r.len
    · rw [show readVlqAux (fuel + 1) r val =
          (if ((r.data.drop r.pos).take 1).headD 0 &&& 0x80 = 0 then
            (.ok ((val <<< 7) ||| (((r.data.drop r.pos).take 1).headD 0 &&& 0x7F)),
              { r with pos := r.pos + 1 })
          else readVlqAux fuel { r with pos := r.pos + 1 }
            ((val <<< 7) ||| (((r.data.drop r.pos).take 1).headD 0 &&& 0x7F))) by
        simp only [readVlqAux, Reader.read_eq hc]]
      split
      · refine ⟨rfl, by simp, (by simp; try omega), ?_, ?_⟩
        · intro _; simpa using hc
        · intro v _; simp
      · obtain ⟨h1, h2, h3, h4, h5⟩ := ih { r with pos := r.pos + 1 }
          ((val <<< 7) ||| (((r.data.drop r.pos).take 1).headD 0 &&& 0x7F))
        refine ⟨h1, by simp at h2 ⊢; omega, by simp at h3 ⊢; omega, ?_, ?_⟩
        · intro _
          exact h4 (by simpa using hc)
        · intro v hv
          have := h5 v hv
          simp at this ⊢
          omega
    · have hrd : r.read 1 = .error "Unexpected EOF" := by
        unfold Reader.read
        rw [if_pos (by omega)]
      rw [show readVlqAux (fuel + 1) r val = (.error "Unexpected EOF", r) by
        simp only [readVlqAux, hrd]]
      simp

theorem read_vlq_facts (r : Reader) :
    ((read_vlq r).2.data = r.data) ∧
    (r.pos ≤ (read_vlq r).2.pos) ∧
    ((read_vlq r).2.pos ≤ r.pos + 4) ∧
    (r.pos ≤ r.len → (read_vlq r).2.pos ≤ r.len) ∧
    (∀ v, (read_vlq r).1 = .ok v → r.pos + 1 ≤ (read_vlq r).2.pos) :=
  readVlqAux_facts 4 r 0

theorem Reader.read_one {r : Reader} {x : Nat} {xs : List Nat}
    (h : r.data.drop r.pos = x :: xs) :
    r.read 1 = .ok ([x], { r with pos := r.pos + 1 }) := by
  have hlen : r.pos + 1 ≤ r.len := by
    have := congrArg List.length h
    simp [Reader.len] at this ⊢
    omega
  rw [Reader.read_eq hlen, h]
  rfl


theorem dropSucc {data : List Nat} {pos : Nat} {x : Nat} {xs : List Nat}
    (h : data.drop pos = x :: xs) : data.drop (pos + 1) = xs := by
  have h1 := congrArg List.tail h
  rw [List.tail_drop] at h1
  simpa using h1

theorem readVlqAux_stop {data : List Nat} {pos fuel val x : Nat} {xs : List Nat}
    (h : data.drop pos = x :: xs) (hx : x &&& 0x80 = 0) :
    readVlqAux (fuel + 1) ⟨data, pos⟩ val =
      (.ok ((val <<< 7) ||| (x &&& 0x7F)), ⟨data, pos + 1⟩) := by
  have hr : (⟨data, pos⟩ : Reader).read 1 = .ok ([x], ⟨data, pos + 1⟩) := Reader.read_one h
  simp only [readVlqAux, hr, List.headD_cons, if_pos hx]

theorem readVlqAux_step {data : List Nat} {pos fuel val x : Nat} {xs : List Nat}
    (h : data.drop pos = x :: xs) (hx : ¬ x &&& 0x80 = 0) :
    readVlqAux (fuel + 1) ⟨data, pos⟩ val =
      readVlqAux fuel ⟨data, pos + 1⟩ ((val <<< 7) ||| (x &&& 0x7F)) := by
  have hr : (⟨data, pos⟩ : Reader).read 1 = .ok ([x], ⟨data, pos + 1⟩) := Reader.read_one h
  simp only [readVlqAux, hr, List.headD_cons, if_neg hx]

theorem readVlqAux_ok_run :
    ∀ (bs : List Nat) (fuel : Nat) (data : List Nat) (pos val b : Nat) (rest : List Nat),
      bs.length < fuel →
      data.drop pos = bs ++ b :: rest →
      (∀ x ∈ bs, x &&& 0x80 ≠ 0) →
      b &&& 0x80 = 0 →
      readVlqAux fuel ⟨data, pos⟩ val =
        (.ok ((bs ++ [b]).foldl (fun v x => (v <<< 7) ||| (x &&& 0x7F)) val),
          ⟨data, pos + bs.length + 1⟩) := by
  intro bs
  induction bs with
  | nil =>
    intro fuel data pos val b rest hfuel hdrop _ hb
    match fuel, hfuel with
    | fuel + 1, _ =>
      simp only [List.nil_append] at hdrop
      rw [readVlqAux_stop hdrop hb]
      simp
  | cons x bs ih =>
    intro fuel data pos val b rest hfuel hdrop hhigh hb
    match fuel, hfuel with
    | fuel + 1, hfuel =>
      simp only [List.cons_append] at hdrop
      rw [readVlqAux_step hdrop (hhigh x (by simp))]
      rw [ih fuel data (pos + 1) ((val <<< 7) ||| (x &&& 0x7F)) b rest
        (by simp at hfuel ⊢; omega) (dropSucc hdrop) (fun y hy => hhigh y (by simp [hy])) hb]
      simp only [List.cons_append, List.foldl_cons, List.length_cons]
      all_goals rw [show pos + 1 + bs.length + 1 = pos + (bs.length + 1) + 1 by omega]

theorem readVlqAux_all_high :
    ∀ (data : List Nat) (pos val b0 b1 b2 b3 : Nat) (rest : List Nat),
      data.drop pos = b0 :: b1 :: b2 :: b3 :: rest →
      b0 &&& 0x80 ≠ 0 → b1 &&& 0x80 ≠ 0 → b2 &&& 0x80 ≠ 0 → b3 &&& 0x80 ≠ 0 →
      readVlqAux 4 ⟨data, pos⟩ val =
        (.error "VLQ demasiado largo (>4 bytes)", ⟨data, pos + 4⟩) := by
  intro data pos val b0 b1 b2 b3 rest hdrop h0 h1 h2 h3
  have d1 := dropSucc hdrop
  have d2 := dropSucc d1
  have d3 := dropSucc d2
  rw [show (4 : Nat) = 3 + 1 from rfl, readVlqAux_step hdrop h0]
  rw [show (3 : Nat) = 2 + 1 from rfl, readVlqAux_step d1 h1]
  rw [show (2 : Nat) = 1 + 1 from rfl, readVlqAux_step d2 h2]
  rw [show (1 : Nat) = 0 + 1 from rfl, readVlqAux_step d3 h3]
  simp only [readVlqAux]

/-! ## Claims about the primitive decoders -/

/-- Claim C5: the VLQ decoder reads at most 4 bytes, accumulating each
byte's low 7 bits most-significant-byte first; it returns the value at
the first byte whose high bit is clear, and fails with the VLQ-too-long
error whenever the first 4 bytes read all have their high bit set. -/
theorem claim_C5_vlq :
    (∀ r : Reader, (read_vlq r).2.pos ≤ r.pos + 4 ∧ (read_vlq r).2.data = r.data) ∧
    (∀ (r : Reader) (bs : List Nat) (b : Nat) (rest : List Nat),
      r.data.drop r.pos = bs ++ b :: rest →
      bs.length < 4 →
      (∀ x ∈ bs, x &&& 0x80 ≠ 0) →
      b &&& 0x80 = 0 →
      read_vlq r =
        (.ok ((bs ++ [b]).foldl (fun v x => (v <<< 7) ||| (x &&& 0x7F)) 0),
          { r with pos := r.pos + bs.length + 1 })) ∧
    (∀ (r : Reader) (b0 b1 b2 b3 : Nat) (rest : List Nat),
      r.data.drop r.pos = b0 :: b1 :: b2 :: b3 :: rest →
      b0 &&& 0x80 ≠ 0 → b1 &&& 0x80 ≠ 0 → b2 &&& 0x80 ≠ 0 → b3 &&& 0x80 ≠ 0 →
      read_vlq r = (.error "VLQ demasiado largo (>4 bytes)", { r with pos := r.pos + 4 })) := by
  refine ⟨?_, ?_, ?_⟩
  · intro r
    obtain ⟨h1, _, h3, _, _⟩ := read_vlq_facts r
    exact ⟨h3, h1⟩
  · intro r bs b rest hdrop hlen hhigh hb
    obtain ⟨data, pos⟩ := r
    exact readVlqAux_ok_run bs 4 data pos 0 b rest hlen hdrop hhigh hb
  · intro r b0 b1 b2 b3 rest hdrop h0 h1 h2 h3
    obtain ⟨data, pos⟩ := r
    exact readVlqAux_all_high data pos 0 b0 b1 b2 b3 rest hdrop h0 h1 h2 h3

/-- Witness for C5: a two-byte VLQ `81 01` decodes to `129` consuming two
bytes, and four continuation bytes `80 80 80 80` fail. -/
theorem claim_C5_vlq_witness :
    read_vlq ⟨[0x81, 0x01], 0⟩ = (.ok 129, ⟨[0x81, 0x01], 2⟩) ∧
    read_vlq ⟨[0x80, 0x80, 0x80, 0x80], 0⟩ =
      (.error "VLQ demasiado largo (>4 bytes)", ⟨[0x80, 0x80, 0x80, 0x80], 4⟩) := by
  constructor
  · have h := claim_C5_vlq.2.1 ⟨[0x81, 0x01], 0⟩ [0x81] 0x01 [] rfl (by decide) (by decide) (by decide)
    rw [h]
    rfl
  · have h := claim_C5_vlq.2.2 ⟨[0x80, 0x80, 0x80, 0x80], 0⟩ 0x80 0x80 0x80 0x80 [] rfl
      (by decide) (by decide) (by decide) (by decide)
    rw [h]

/-- Claim C6: for a 16-bit division value, if the high bit is set then
ticks-per-frame `= 0` always yields an error, a frames-per-second value
outside `{24,25,29,30}` always yields a warning and (when ticks-per-frame
is nonzero) never an error; with the high bit clear, a zero PPQN value
yields an error and a positive one yields no diagnostic at all. -/
theorem claim_C6_division (div : Nat) (rep : FileReport) (_hdiv : div < 65536) :
    (div &&& 0x8000 ≠ 0 →
      ((div &&& 0xFF = 0 → (validate_division div rep).errors.length = rep.errors.length + 1) ∧
       (div &&& 0xFF ≠ 0 → (validate_division div rep).errors = rep.errors) ∧
       (smpte_fps div ∉ ([24, 25, 29, 30] : List Int) →
         (validate_division div rep).warnings.length = rep.warnings.length + 1) ∧
       (smpte_fps div ∈ ([24, 25, 29, 30] : List Int) →
         (validate_division div rep).warnings = rep.warnings))) ∧
    (div &&& 0x8000 = 0 →
      ((div = 0 → (validate_division div rep).errors.length = rep.errors.length + 1) ∧
       (div ≠ 0 → validate_division div rep = rep))) := by
  unfold validate_division
  constructor
  · intro hhi
    rw [if_pos hhi]
    by_cases hf : smpte_fps div ∈ ([24, 25, 29, 30] : List Int) <;>
      by_cases ht : div &&& 0xFF = 0 <;>
        simp [hf, ht, fileErr, fileWarn2]
  · intro hlo
    rw [if_neg (by simp [hlo])]
    constructor
    · intro h0
      rw [if_pos (by omega)]
      simp [fileErr]
    · intro h0
      rw [if_neg (by omega)]

/-- Witness for C6: division `0x8000` (SMPTE, fps `128`, ticks-per-frame
`0`) yields one error and one warning; division `0x6000` (PPQN `24576`)
yields no diagnostic. -/
theorem claim_C6_division_witness :
    (validate_division 0x8000 emptyReport).errors.length = emptyReport.errors.length + 1 ∧
    (validate_division 0x8000 emptyReport).warnings.length = emptyReport.warnings.length + 1 ∧
    validate_division 0x6000 emptyReport = emptyReport :=
  ⟨((claim_C6_division 0x8000 emptyReport (by decide)).1 (by decide)).1 (by decide),
   ((claim_C6_division 0x8000 emptyReport (by decide)).1 (by decide)).2.2.1 (by decide),
   ((claim_C6_division 0x6000 emptyReport (by decide)).2 (by decide)).2 (by decide)⟩

/-! ## Small preservation lemmas for the track-report mutators -/

@[simp] theorem _err_errors (tr : TrackReport) (m : String) (o : Nat) :
    (_err tr m o).errors = tr.errors ++ [m] := rfl

@[simp] theorem _err_warnings (tr : TrackReport) (m : String) (o : Nat) :
    (_err tr m o).warnings = tr.warnings := rfl

@[simp] theorem _err_stats (tr : TrackReport) (m : String) (o : Nat) :
    (_err tr m o).stats = tr.stats := rfl

@[simp] theorem _err_eot (tr : TrackReport) (m : String) (o : Nat) :
    (_err tr m o).has_end_of_track = tr.has_end_of_track := rfl

@[simp] theorem _err_length_parsed (tr : TrackReport) (m : String) (o : Nat) :
    (_err tr m o).length_parsed = tr.length_parsed := rfl

@[simp] theorem _err_length_declared (tr : TrackReport) (m : String) (o : Nat) :
    (_err tr m o).length_declared = tr.length_declared := rfl

@[simp] theorem _warn_errors (tr : TrackReport) (m : String) (o : Nat) :
    (_warn tr m o).errors = tr.errors := rfl

@[simp] theorem _warn_warnings (tr : TrackReport) (m : String) (o : Nat) :
    (_warn tr m o).warnings = tr.warnings ++ [m] := rfl

@[simp] theorem _warn_stats (tr : TrackReport) (m : String) (o : Nat) :
    (_warn tr m o).stats = tr.stats := rfl

@[simp] theorem _warn_eot (tr : TrackReport) (m : String) (o : Nat) :
    (_warn tr m o).has_end_of_track = tr.has_end_of_track := rfl

@[simp] theorem _warn_length_parsed (tr : TrackReport) (m : String) (o : Nat) :
    (_warn tr m o).length_parsed = tr.length_parsed := rfl

@[simp] theorem _warn_length_declared (tr : TrackReport) (m : String) (o : Nat) :
    (_warn tr m o).length_declared = tr.length_declared := rfl

theorem _check_data_range_stats (vals : List Nat) (tr : TrackReport) (tindex : Nat)
    (ctx : String) (off : Nat) : (_check_data_range vals tr tindex ctx off).stats = tr.stats := by
  unfold _check_data_range
  split <;> simp

@[simp] theorem _check_data_range_length_declared (vals : List Nat) (tr : TrackReport)
    (tindex : Nat) (ctx : String) (off : Nat) :
    (_check_data_range vals tr tindex ctx off).length_declared = tr.length_declared := by
  unfold _check_data_range
  split <;> simp

@[simp] theorem _check_data_range_eot (vals : List Nat) (tr : TrackReport)
    (tindex : Nat) (ctx : String) (off : Nat) :
    (_check_data_range vals tr tindex ctx off).has_end_of_track = tr.has_end_of_track := by
  unfold _check_data_range
  split <;> simp


@[simp] theorem withStats_errors (tr : TrackReport) (f : TrackStats → TrackStats) :
    (withStats tr f).errors = tr.errors := rfl

@[simp] theorem withStats_warnings (tr : TrackReport) (f : TrackStats → TrackStats) :
    (withStats tr f).warnings = tr.warnings := rfl

@[simp] theorem withStats_eot (tr : TrackReport) (f : TrackStats → TrackStats) :
    (withStats tr f).has_end_of_track = tr.has_end_of_track := rfl

@[simp] theorem withStats_length_parsed (tr : TrackReport) (f : TrackStats → TrackStats) :
    (withStats tr f).length_parsed = tr.length_parsed := rfl

@[simp] theorem withStats_length_declared (tr : TrackReport) (f : TrackStats → TrackStats) :
    (withStats tr f).length_declared = tr.length_declared := rfl

@[simp] theorem withStats_stats (tr : TrackReport) (f : TrackStats → TrackStats) :
    (withStats tr f).stats = f tr.stats := rfl

/-! ## Claim C7: Note-On with velocity zero -/

/-- Claim C7: decoding a channel-voice Note-On event (status `0x90`
through `0x9F`, i.e. `status &&& 0xF0 = 0x90`) whose velocity byte is
`0` increments the note-off counter, leaves the note-on counter
unchanged, and — when `pairNotes` is enabled — the active-note count for
that (channel, pitch) key becomes its old value decremented and clamped
at zero. -/
theorem claim_C7_noteon_vel0 (s : Nat) (lr : Reader) (tindex start : Nat) (pair : Bool)
    (tr : TrackReport) (active : Nat × Nat → Int) (p : Nat) (rest : List Nat)
    (hs : s &&& 0xF0 = 0x90)
    (hdrop : lr.data.drop lr.pos = p :: 0 :: rest) :
    ∃ tr2 lr2 a2,
      handleChannelVoice s lr tindex start pair tr active = .cont tr2 lr2 a2 ∧
      tr2.stats.note_off = tr.stats.note_off + 1 ∧
      tr2.stats.note_on = tr.stats.note_on ∧
      (pair = true → a2 (s &&& 0x0F, p) = max 0 (active (s &&& 0x0F, p) - 1)) := by
  have hlen := congrArg List.length hdrop
  simp only [List.length_drop, List.length_cons] at hlen
  have hrd : lr.read 2 = .ok ([p, 0], { lr with pos := lr.pos + 2 }) := by
    rw [Reader.read_eq (by unfold Reader.len; omega), hdrop]
    rfl
  have hrem : ¬ lr.remaining < 2 := by
    unfold Reader.remaining Reader.len
    omega
  simp only [handleChannelVoice, hs]
  norm_num
  rw [if_neg hrem, hrd]
  norm_num
  refine ⟨_, _, _, ⟨rfl, rfl, rfl⟩, ?_, ?_, ?_⟩
  · simp [_check_data_range_stats]
  · simp [_check_data_range_stats]
  · intro hp
    simp [hp, updFn]

/-- Witness for C7: Note-On on channel 2 (`0x92`), pitch 64, velocity 0,
with one active note for the key. -/
theorem claim_C7_noteon_vel0_witness :
    ∃ tr2 lr2 a2,
      handleChannelVoice 0x92 ⟨[64, 0], 0⟩ 0 0 true { index := 0 } (fun _ => 1) =
        .cont tr2 lr2 a2 ∧
      tr2.stats.note_off = ({ index := 0 } : TrackReport).stats.note_off + 1 ∧
      tr2.stats.note_on = ({ index := 0 } : TrackReport).stats.note_on ∧
      (true = true → a2 (0x92 &&& 0x0F, 64) = max 0 ((fun (_ : Nat × Nat) => (1 : Int)) (0x92 &&& 0x0F, 64) - 1)) :=
  claim_C7_noteon_vel0 0x92 ⟨[64, 0], 0⟩ 0 0 true { index := 0 } (fun _ => 1) 64 []
    (by decide) rfl

/-! ## Claim C8: Set-Tempo meta events -/

/-- Claim C8: a Set-Tempo meta event (`FF 51`) with declared length
different from 3 always yields an error, for any value of the `strict`
flag; with length 3 and `strict = true`, a 24-bit value outside
`[10000, 2000000]` yields a warning (and no error), while a value inside
the range yields no diagnostic at all. -/
theorem claim_C8_tempo :
    (∀ (lr : Reader) (tindex start : Nat) (strict : Bool) (tr : TrackReport)
       (l1 l2 l3 : Reader) (ln : Nat) (md : List Nat),
      2 ≤ lr.remaining →
      lr.read 1 = .ok ([0x51], l1) →
      read_vlq l1 = (.ok ln, l2) →
      l2.read ln = .ok (md, l3) →
      ln ≠ 3 →
      ∃ tr2 lr2, handleMeta lr tindex start strict tr = .cont tr2 lr2 ∧
        tr2.errors.length = tr.errors.length + 1) ∧
    (∀ (lr : Reader) (tindex start : Nat) (tr : TrackReport)
       (l1 l2 l3 : Reader) (a b c : Nat),
      2 ≤ lr.remaining →
      lr.read 1 = .ok ([0x51], l1) →
      read_vlq l1 = (.ok 3, l2) →
      l2.read 3 = .ok ([a, b, c], l3) →
      ¬ (10000 ≤ (a <<< 16) ||| (b <<< 8) ||| c ∧ (a <<< 16) ||| (b <<< 8) ||| c ≤ 2000000) →
      ∃ tr2 lr2, handleMeta lr tindex start true tr = .cont tr2 lr2 ∧
        tr2.warnings.length = tr.warnings.length + 1 ∧ tr2.errors = tr.errors) ∧
    (∀ (lr : Reader) (tindex start : Nat) (strict : Bool) (tr : TrackReport)
       (l1 l2 l3 : Reader) (a b c : Nat),
      2 ≤ lr.remaining →
      lr.read 1 = .ok ([0x51], l1) →
      read_vlq l1 = (.ok 3, l2) →
      l2.read 3 = .ok ([a, b, c], l3) →
      10000 ≤ (a <<< 16) ||| (b <<< 8) ||| c ∧ (a <<< 16) ||| (b <<< 8) ||| c ≤ 2000000 →
      ∃ tr2 lr2, handleMeta lr tindex start strict tr = .cont tr2 lr2 ∧
        tr2.errors = tr.errors ∧ tr2.warnings = tr.warnings) := by
  refine ⟨?_, ?_, ?_⟩
  · intro lr tindex start strict tr l1 l2 l3 ln md h0 h1 h2 h3 hln
    have hrem2 : ¬ lr.remaining < 2 := by omega
    have hrln : ¬ l2.remaining < ln := by
      obtain ⟨hle, -, -⟩ := Reader.of_read_ok h3
      unfold Reader.remaining
      omega
    simp only [handleMeta, if_neg hrem2, h1, h2, if_neg hrln, h3]
    norm_num [hln]
  · intro lr tindex start tr l1 l2 l3 a b c h0 h1 h2 h3 hus
    have hrem2 : ¬ lr.remaining < 2 := by omega
    have hrln : ¬ l2.remaining < 3 := by
      obtain ⟨hle, -, -⟩ := Reader.of_read_ok h3
      unfold Reader.remaining
      omega
    simp only [handleMeta, if_neg hrem2, h1, h2, if_neg hrln, h3]
    norm_num [hus]
  · intro lr tindex start strict tr l1 l2 l3 a b c h0 h1 h2 h3 hus
    have hrem2 : ¬ lr.remaining < 2 := by omega
    have hrln : ¬ l2.remaining < 3 := by
      obtain ⟨hle, -, -⟩ := Reader.of_read_ok h3
      unfold Reader.remaining
      omega
    simp only [handleMeta, if_neg hrem2, h1, h2, if_neg hrln, h3]
    norm_num [hus]

/-- Witness for C8: a Set-Tempo event `51 02 00 00` (declared length 2)
yields one error; `51 03 4C 4B 40` (value 5000000, `strict`) yields one
warning and no error; `51 03 07 A1 20` (value 500000) yields nothing. -/
theorem claim_C8_tempo_witness :
    (∃ tr2 lr2, handleMeta ⟨[0x51, 0x02, 0, 0], 0⟩ 0 0 false { index := 0 } = .cont tr2 lr2 ∧
      tr2.errors.length = ({ index := 0 } : TrackReport).errors.length + 1) ∧
    (∃ tr2 lr2, handleMeta ⟨[0x51, 0x03, 0x4C, 0x4B, 0x40], 0⟩ 0 0 true { index := 0 } = .cont tr2 lr2 ∧
      tr2.warnings.length = ({ index := 0 } : TrackReport).warnings.length + 1 ∧
      tr2.errors = ({ index := 0 } : TrackReport).errors) ∧
    (∃ tr2 lr2, handleMeta ⟨[0x51, 0x03, 0x07, 0xA1, 0x20], 0⟩ 0 0 true { index := 0 } = .cont tr2 lr2 ∧
      tr2.errors = ({ index := 0 } : TrackReport).errors ∧
      tr2.warnings = ({ index := 0 } : TrackReport).warnings) :=
  ⟨claim_C8_tempo.1 ⟨[0x51, 0x02, 0, 0], 0⟩ 0 0 false { index := 0 }
      ⟨[0x51, 0x02, 0, 0], 1⟩ ⟨[0x51, 0x02, 0, 0], 2⟩ ⟨[0x51, 0x02, 0, 0], 4⟩ 2 [0, 0]
      (by decide) rfl rfl rfl (by decide),
   claim_C8_tempo.2.1 ⟨[0x51, 0x03, 0x4C, 0x4B, 0x40], 0⟩ 0 0 { index := 0 }
      ⟨[0x51, 0x03, 0x4C, 0x4B, 0x40], 1⟩ ⟨[0x51, 0x03, 0x4C, 0x4B, 0x40], 2⟩
      ⟨[0x51, 0x03, 0x4C, 0x4B, 0x40], 5⟩ 0x4C 0x4B 0x40
      (by decide) rfl rfl rfl (by decide),
   claim_C8_tempo.2.2 ⟨[0x51, 0x03, 0x07, 0xA1, 0x20], 0⟩ 0 0 true { index := 0 }
      ⟨[0x51, 0x03, 0x07, 0xA1, 0x20], 1⟩ ⟨[0x51, 0x03, 0x07, 0xA1, 0x20], 2⟩
      ⟨[0x51, 0x03, 0x07, 0xA1, 0x20], 5⟩ 0x07 0xA1 0x20
      (by decide) rfl rfl rfl (by decide)⟩

/-! ## Claim C4: the minimal valid file -/

/-- Claim C4: for the minimal valid file — format 0 header, one track,
PPQN division 96, one track chunk containing exactly `00 FF 2F 00` —
validation yields `ok = true`, no errors, no warnings anywhere,
`has_end_of_track = true` and `length_parsed = length_declared`, for
every setting of the two flags. -/
theorem claim_C4_minimal (pair strict : Bool) :
    (validate_midi_file "minimal.mid" minimalMidi pair strict).ok = true ∧
    (validate_midi_file "minimal.mid" minimalMidi pair strict).errors = [] ∧
    (validate_midi_file "minimal.mid" minimalMidi pair strict).warnings = [] ∧
    (validate_midi_file "minimal.mid" minimalMidi pair strict).tracks.map
      (fun t => t.errors) = [[]] ∧
    (validate_midi_file "minimal.mid" minimalMidi pair strict).tracks.map
      (fun t => t.warnings) = [[]] ∧
    (validate_midi_file "minimal.mid" minimalMidi pair strict).tracks.map
      (fun t => t.has_end_of_track) = [true] ∧
    (validate_midi_file "minimal.mid" minimalMidi pair strict).tracks.map
      (fun t => (t.length_parsed, t.length_declared)) = [(4, 4)] := by
  cases pair <;> cases strict <;> decide
@[simp] theorem fileErr_ok (rep : FileReport) (m : String) (o : Nat) :
    (fileErr rep m o).ok = rep.ok := rfl

@[simp] theorem fileErr_path (rep : FileReport) (m : String) (o : Nat) :
    (fileErr rep m o).path = rep.path := rfl

@[simp] theorem fileErr_tracks (rep : FileReport) (m : String) (o : Nat) :
    (fileErr rep m o).tracks = rep.tracks := rfl

@[simp] theorem fileErr_header (rep : FileReport) (m : String) (o : Nat) :
    (fileErr rep m o).header = rep.header := rfl

@[simp] theorem fileErr_bytes_size (rep : FileReport) (m : String) (o : Nat) :
    (fileErr rep m o).bytes_size = rep.bytes_size := rfl

@[simp] theorem fileErr_errors (rep : FileReport) (m : String) (o : Nat) :
    (fileErr rep m o).errors = rep.errors ++ [m] := rfl

@[simp] theorem fileErr_warnings (rep : FileReport) (m : String) (o : Nat) :
    (fileErr rep m o).warnings = rep.warnings := rfl

@[simp] theorem fileWarn2_ok (rep : FileReport) (m l : String) (o : Nat) :
    (fileWarn2 rep m l o).ok = rep.ok := rfl

@[simp] theorem fileWarn2_path (rep : FileReport) (m l : String) (o : Nat) :
    (fileWarn2 rep m l o).path = rep.path := rfl

@[simp] theorem fileWarn2_tracks (rep : FileReport) (m l : String) (o : Nat) :
    (fileWarn2 rep m l o).tracks = rep.tracks := rfl

@[simp] theorem fileWarn2_header (rep : FileReport) (m l : String) (o : Nat) :
    (fileWarn2 rep m l o).header = rep.header := rfl

@[simp] theorem fileWarn2_bytes_size (rep : FileReport) (m l : String) (o : Nat) :
    (fileWarn2 rep m l o).bytes_size = rep.bytes_size := rfl

@[simp] theorem fileWarn2_errors (rep : FileReport) (m l : String) (o : Nat) :
    (fileWarn2 rep m l o).errors = rep.errors := rfl

@[simp] theorem fileWarn2_warnings (rep : FileReport) (m l : String) (o : Nat) :
    (fileWarn2 rep m l o).warnings = rep.warnings ++ [m] := rfl

theorem validate_division_inv (div : Nat) (rep : FileReport) :
    (validate_division div rep).ok = rep.ok ∧
    (validate_division div rep).path = rep.path ∧
    (validate_division div rep).tracks = rep.tracks ∧
    (validate_division div rep).header = rep.header ∧
    (validate_division div rep).bytes_size = rep.bytes_size := by
  simp only [validate_division]
  repeat' split
  all_goals simp

@[simp] theorem finish_header_fst (fmt ntr div : Nat) (r : Reader) (rep : FileReport) :
    (finish_header fmt ntr div r rep).1 = some ⟨fmt, ntr, div⟩ := rfl

@[simp] theorem finish_header_ok (fmt ntr div : Nat) (r : Reader) (rep : FileReport) :
    (finish_header fmt ntr div r rep).2.1.ok = rep.ok := by
  simp only [finish_header]
  rw [(validate_division_inv div _).1]
  repeat' split
  all_goals simp

@[simp] theorem finish_header_path (fmt ntr div : Nat) (r : Reader) (rep : FileReport) :
    (finish_header fmt ntr div r rep).2.1.path = rep.path := by
  simp only [finish_header]
  rw [(validate_division_inv div _).2.1]
  repeat' split
  all_goals simp

@[simp] theorem finish_header_tracks (fmt ntr div : Nat) (r : Reader) (rep : FileReport) :
    (finish_header fmt ntr div r rep).2.1.tracks = rep.tracks := by
  simp only [finish_header]
  rw [(validate_division_inv div _).2.2.1]
  repeat' split
  all_goals simp

@[simp] theorem finish_header_header (fmt ntr div : Nat) (r : Reader) (rep : FileReport) :
    (finish_header fmt ntr div r rep).2.1.header = rep.header := by
  simp only [finish_header]
  rw [(validate_division_inv div _).2.2.2.1]
  repeat' split
  all_goals simp

@[simp] theorem finish_header_bytes_size (fmt ntr div : Nat) (r : Reader) (rep : FileReport) :
    (finish_header fmt ntr div r rep).2.1.bytes_size = rep.bytes_size := by
  simp only [finish_header]
  rw [(validate_division_inv div _).2.2.2.2]
  repeat' split
  all_goals simp

theorem parse_header_inv (r : Reader) (rep : FileReport) :
    (parse_header r rep).2.1.ok = rep.ok ∧
    (parse_header r rep).2.1.path = rep.path ∧
    (parse_header r rep).2.1.tracks = rep.tracks ∧
    (parse_header r rep).2.1.bytes_size = rep.bytes_size ∧
    ((parse_header r rep).1 = none →
      ((parse_header r rep).2.1.header = rep.header ∧
       (parse_header r rep).2.1.errors.length = rep.errors.length + 1)) := by
  simp only [parse_header]
  repeat' split
  all_goals simp [apply_ite]

/-! ## Claims about the report aggregator -/

/-- Claim C2: the validation function raises no exception to its caller
— the `Except`-typed `try` body never produces `.error`, for every input
byte sequence and every flag setting — and it returns a complete report
(with the caller-supplied path and the exact byte size recorded).  The
only failure the interface may signal is the upstream I/O precondition
of actually obtaining the bytes, which precedes this function. -/
theorem claim_C2_total (path : String) (data : List Nat) (pair strict : Bool) :
    validateCore path data pair strict = .ok (validate_midi_file path data pair strict) ∧
    (validate_midi_file path data pair strict).path = path ∧
    (validate_midi_file path data pair strict).bytes_size = data.length := by
  unfold validate_midi_file validateCore
  rcases hph : parse_header ⟨data, 0⟩ { path := path, ok := false, bytes_size := data.length }
    with ⟨ho, rep1, r1⟩
  have hinv := parse_header_inv ⟨data, 0⟩ { path := path, ok := false, bytes_size := data.length }
  rw [hph] at hinv
  cases ho with
  | none =>
    simp only [hph]
    exact ⟨trivial, by simpa using hinv.2.1, by simpa using hinv.2.2.2.1⟩
  | some hd =>
    simp only [hph]
    exact ⟨trivial, by simpa using hinv.2.1, by simpa using hinv.2.2.2.1⟩


/-- Claim C1: the report verdict `ok` is true iff the number of
file-level errors plus the number of errors in every track report is
exactly zero; warnings are not counted. -/
theorem claim_C1_ok_iff (path : String) (data : List Nat) (pair strict : Bool) :
    (validate_midi_file path data pair strict).ok = true ↔
      (validate_midi_file path data pair strict).errors.length +
        ((validate_midi_file path data pair strict).tracks.map (fun t => t.errors.length)).sum = 0 := by
  unfold validate_midi_file validateCore
  rcases hph : parse_header ⟨data, 0⟩ { path := path, ok := false, bytes_size := data.length }
    with ⟨ho, rep1, r1⟩
  have hinv := parse_header_inv ⟨data, 0⟩ { path := path, ok := false, bytes_size := data.length }
  rw [hph] at hinv
  cases ho with
  | none =>
    obtain ⟨hh, he⟩ := hinv.2.2.2.2 rfl
    simp only [hph]
    have hok : rep1.ok = false := by simpa using hinv.1
    have htr : rep1.tracks = [] := by simpa using hinv.2.2.1
    have hel : rep1.errors.length = 1 := by simpa using he
    simp [hok, htr, hel]
  | some hd =>
    simp only [hph]
    simp [beq_iff_eq]


/-- Claim C3: for every input whose first 4 bytes are not `MThd`, the
report has an absent header, no track reports, exactly one file-level
error, and `ok = false`; moreover any report with an absent header has
no track reports. -/
theorem claim_C3_no_mthd (path : String) (data : List Nat) (pair strict : Bool) :
    (data.take 4 ≠ MAGIC_MTHD →
      ((validate_midi_file path data pair strict).header = none ∧
       (validate_midi_file path data pair strict).tracks = [] ∧
       (validate_midi_file path data pair strict).errors.length = 1 ∧
       (validate_midi_file path data pair strict).ok = false)) ∧
    ((validate_midi_file path data pair strict).header = none →
      (validate_midi_file path data pair strict).tracks = []) := by
  constructor
  · intro htag
    unfold validate_midi_file validateCore
    by_cases hlen : (4 : Nat) ≤ data.length
    · have hrd : (⟨data, 0⟩ : Reader).read 4 = .ok (data.take 4, ⟨data, 4⟩) := by
        rw [Reader.read_eq (by simp [Reader.len]; omega)]
        simp
      simp only [parse_header, hrd]
      rw [if_pos htag]
      simp
    · have hrd : (⟨data, 0⟩ : Reader).read 4 = .error "Unexpected EOF" := by
        unfold Reader.read Reader.len
        rw [if_pos (by simp; omega)]
      simp only [parse_header, hrd]
      simp
  · intro hnone
    revert hnone
    unfold validate_midi_file validateCore
    rcases hph : parse_header ⟨data, 0⟩ { path := path, ok := false, bytes_size := data.length }
      with ⟨ho, rep1, r1⟩
    have hinv := parse_header_inv ⟨data, 0⟩ { path := path, ok := false, bytes_size := data.length }
    rw [hph] at hinv
    cases ho with
    | none =>
      obtain ⟨hh, -⟩ := hinv.2.2.2.2 rfl
      simp only [hph]
      intro _
      simpa using hinv.2.2.1
    | some hd =>
      simp only [hph]
      intro hcontra
      simp at hcontra

/-- Witness for C3: the three-byte input `[1, 2, 3]` (whose first 4
bytes are not `MThd`). -/
theorem claim_C3_no_mthd_witness :
    (validate_midi_file "w.mid" [1, 2, 3] false false).header = none ∧
    (validate_midi_file "w.mid" [1, 2, 3] false false).tracks = [] ∧
    (validate_midi_file "w.mid" [1, 2, 3] false false).errors.length = 1 ∧
    (validate_midi_file "w.mid" [1, 2, 3] false false).ok = false :=
  (claim_C3_no_mthd "w.mid" [1, 2, 3] false false).1 (by decide)
theorem ReaderLe.rfl' {lr : Reader} (h : lr.pos ≤ lr.len) : ReaderLe lr lr :=
  ⟨rfl, Nat.le_refl _, h⟩

theorem Reader.remaining_def (r : Reader) : r.remaining = r.len - r.pos := rfl

theorem handleSysex_spec (lr : Reader) (tindex start : Nat) (tr : TrackReport)
    (h : lr.pos ≤ lr.len) :
    (∃ tr2 lr2, handleSysex lr tindex start tr = .cont tr2 lr2 ∧ ReaderLe lr lr2 ∧
      tr2.length_declared = tr.length_declared) ∨
    (∃ tr2 lr2, handleSysex lr tindex start tr = .brk tr2 lr2 ∧ ReaderLe lr lr2 ∧
      tr2.length_declared = tr.length_declared) := by
  rcases hv : read_vlq lr with ⟨res, l1⟩
  have hf := read_vlq_facts lr
  rw [hv] at hf
  dsimp only at hf
  obtain ⟨hfd, hfp, hfb, hfl, hfo⟩ := hf
  have hlen1 : l1.len = lr.len := Reader.len_eq_of_data_eq hfd
  cases res with
  | error e =>
    right
    simp only [handleSysex, hv]
    exact ⟨_, _, rfl, ⟨hfd, hfp, hfl h⟩, by simp⟩
  | ok ln =>
    by_cases hln : l1.remaining < ln
    · right
      simp only [handleSysex, hv, if_pos hln]
      exact ⟨_, _, rfl, ⟨hfd, hfp, hfl h⟩, by simp⟩
    · have hle2 : l1.pos + ln ≤ l1.len := by
        rw [Reader.remaining_def] at hln
        have := hfl h
        omega
      left
      simp only [handleSysex, hv, if_neg hln, Reader.read_eq hle2]
      refine ⟨_, _, rfl, ⟨?_, ?_, ?_⟩, by simp⟩
      · simpa using hfd
      · simp
        omega
      · simp
        omega
theorem handleCV_spec (s : Nat) (lr : Reader) (tindex start : Nat) (pair : Bool)
    (tr : TrackReport) (active : Nat × Nat → Int) (h : lr.pos ≤ lr.len) :
    (∃ tr2 lr2 a2, handleChannelVoice s lr tindex start pair tr active = .cont tr2 lr2 a2 ∧
      ReaderLe lr lr2 ∧ tr2.length_declared = tr.length_declared) ∨
    (∃ tr2 lr2, handleChannelVoice s lr tindex start pair tr active = .brk tr2 lr2 ∧
      ReaderLe lr lr2 ∧ tr2.length_declared = tr.length_declared) := by
  simp only [handleChannelVoice]
  set dl := (if s &&& 0xF0 = 0xC0 ∨ s &&& 0xF0 = 0xD0 then (1 : Nat) else 2) with hdl
  by_cases hrem : lr.remaining < dl
  · right
    rw [if_pos hrem]
    exact ⟨_, _, rfl, ReaderLe.rfl' h, by simp⟩
  · have hle : lr.pos + dl ≤ lr.len := by
      rw [Reader.remaining_def] at hrem
      omega
    have hR : ReaderLe lr { lr with pos := lr.pos + dl } :=
      ⟨rfl, by simp, by simp; omega⟩
    simp only [if_neg hrem, Reader.read_eq hle]
    left
    split_ifs <;> exact ⟨_, _, _, rfl, hR, by simp⟩
@[simp] theorem Reader.len_mk (d : List Nat) (p : Nat) : (Reader.mk d p).len = d.length := rfl

@[simp] theorem Reader.remaining_mk (d : List Nat) (p : Nat) :
    (Reader.mk d p).remaining = d.length - p := rfl

theorem handleMeta_spec (lr : Reader) (tindex start : Nat) (strict : Bool) (tr : TrackReport)
    (h : lr.pos ≤ lr.len) :
    (∃ tr2 lr2, handleMeta lr tindex start strict tr = .cont tr2 lr2 ∧ ReaderLe lr lr2 ∧
      tr2.length_declared = tr.length_declared) ∨
    (∃ tr2 lr2, handleMeta lr tindex start strict tr = .brk tr2 lr2 ∧ ReaderLe lr lr2 ∧
      tr2.length_declared = tr.length_declared) := by
  by_cases h2 : lr.remaining < 2
  · right
    simp only [handleMeta, if_pos h2]
    exact ⟨_, _, rfl, ReaderLe.rfl' h, by simp⟩
  · rw [Reader.remaining_def] at h2
    have h' : lr.pos ≤ lr.data.length := h
    have h2' : 2 ≤ lr.data.length - lr.pos := by
      have : lr.len = lr.data.length := rfl
      omega
    have hle1 : lr.pos + 1 ≤ lr.len := by
      show lr.pos + 1 ≤ lr.data.length
      omega
    rcases hv : read_vlq ({ lr with pos := lr.pos + 1 }) with ⟨res, l2⟩
    have hf := read_vlq_facts ({ lr with pos := lr.pos + 1 })
    rw [hv] at hf
    dsimp only at hf
    obtain ⟨hfd, hfp, hfb, hfl, hfo⟩ := hf
    have hd2 : l2.data = lr.data := hfd
    have hdl2 : l2.data.length = lr.data.length := by rw [hd2]
    have hp2 : l2.pos ≤ lr.data.length := by
      have := hfl (by show lr.pos + 1 ≤ lr.data.length; omega)
      exact this
    have hfp' : lr.pos + 1 ≤ l2.pos := hfp
    have hR2 : ReaderLe lr l2 := ⟨hd2, by omega, hp2⟩
    have hrm2 : ¬ lr.remaining < 2 := by rw [Reader.remaining_def]; exact by omega
    cases res with
    | error e =>
      right
      simp only [handleMeta, if_neg hrm2, Reader.read_eq hle1, hv]
      exact ⟨_, _, rfl, hR2, by simp⟩
    | ok ln =>
      by_cases hln : l2.remaining < ln
      · right
        simp only [handleMeta, if_neg hrm2, Reader.read_eq hle1, hv, if_pos hln]
        exact ⟨_, _, rfl, hR2, by simp⟩
      · rw [Reader.remaining_def] at hln
        have hln' : ln ≤ l2.data.length - l2.pos := by
          have : l2.len = l2.data.length := rfl
          omega
        have hle2 : l2.pos + ln ≤ l2.len := by
          show l2.pos + ln ≤ l2.data.length
          omega
        have hrmln : ¬ l2.remaining < ln := by rw [Reader.remaining_def]; exact by omega
        have hR3 : ReaderLe lr { l2 with pos := l2.pos + ln } := by
          refine ⟨hd2, by simp; omega, ?_⟩
          show l2.pos + ln ≤ lr.data.length
          omega
        simp only [handleMeta, if_neg hrm2, Reader.read_eq hle1, hv, if_neg hrmln,
          Reader.read_eq hle2]
        by_cases hm : (List.take 1 (List.drop lr.pos lr.data)).headD 0 = 0x2F
        · simp only [if_pos hm]
          by_cases hr0 : ({ l2 with pos := l2.pos + ln } : Reader).remaining > 0
          · right
            have hle4 : ({ l2 with pos := l2.pos + ln } : Reader).pos +
                ({ l2 with pos := l2.pos + ln } : Reader).remaining ≤
                ({ l2 with pos := l2.pos + ln } : Reader).len := by
              simp
              omega
            simp only [if_pos hr0, Reader.read_eq hle4]
            refine ⟨_, _, rfl, ⟨hd2, by simp; omega, ?_⟩, ?_⟩
            · show l2.pos + ln + (l2.data.length - (l2.pos + ln)) ≤ lr.data.length
              omega
            · split_ifs <;> simp
          · left
            simp only [if_neg hr0]
            refine ⟨_, _, rfl, hR3, ?_⟩
            split_ifs <;> simp
        · simp only [if_neg hm]
          left
          split_ifs <;> exact ⟨_, _, rfl, hR3, by simp⟩
theorem scanDispatch_spec (tindex start : Nat) (pair strict : Bool) (status : Option Nat)
    (active : Nat × Nat → Int) (tr : TrackReport) (lr : Reader) (h : lr.pos ≤ lr.len) :
    (∃ tr2 lr2, scanDispatch tindex start pair strict status active tr lr = .fin tr2 lr2 ∧
      ReaderLe lr lr2 ∧ tr2.length_declared = tr.length_declared) ∨
    (∃ tr2 lr2 st2 a2, scanDispatch tindex start pair strict status active tr lr =
      .cont tr2 lr2 st2 a2 ∧ ReaderLe lr lr2 ∧ tr2.length_declared = tr.length_declared) := by
  cases status with
  | none =>
    left
    simp only [scanDispatch]
    exact ⟨_, _, rfl, ReaderLe.rfl' h, by simp⟩
  | some s =>
    simp only [scanDispatch]
    by_cases hcv : 0x80 ≤ s ∧ s ≤ 0xEF
    · rw [if_pos hcv]
      rcases handleCV_spec s lr tindex start pair tr active h with
        ⟨tr2, lr2, a2, he, hR, hP⟩ | ⟨tr2, lr2, he, hR, hP⟩
      · right
        simp only [he]
        exact ⟨_, _, _, _, rfl, hR, hP⟩
      · left
        simp only [he]
        exact ⟨_, _, rfl, hR, hP⟩
    · rw [if_neg hcv]
      by_cases hff : s = 0xFF
      · rw [if_pos hff]
        rcases handleMeta_spec lr tindex start strict tr h with
          ⟨tr2, lr2, he, hR, hP⟩ | ⟨tr2, lr2, he, hR, hP⟩
        · right
          simp only [he]
          exact ⟨_, _, _, _, rfl, hR, hP⟩
        · left
          simp only [he]
          exact ⟨_, _, rfl, hR, hP⟩
      · rw [if_neg hff]
        by_cases hsx : s = 0xF0 ∨ s = 0xF7
        · rw [if_pos hsx]
          rcases handleSysex_spec lr tindex start tr h with
            ⟨tr2, lr2, he, hR, hP⟩ | ⟨tr2, lr2, he, hR, hP⟩
          · right
            simp only [he]
            exact ⟨_, _, _, _, rfl, hR, hP⟩
          · left
            simp only [he]
            exact ⟨_, _, rfl, hR, hP⟩
        · rw [if_neg hsx]
          left
          exact ⟨_, _, rfl, ReaderLe.rfl' h, by simp⟩

theorem scanStep_spec (tindex start : Nat) (pair strict : Bool) (lr : Reader)
    (status : Option Nat) (active : Nat × Nat → Int) (tr : TrackReport)
    (h : lr.pos ≤ lr.len) :
    (∃ tr2 lr2, scanStep tindex start pair strict lr status active tr = .fin tr2 lr2 ∧
      lr2.data = lr.data ∧ lr2.pos ≤ lr.len ∧ tr2.length_declared = tr.length_declared) ∨
    (∃ tr2 lr2 st2 a2, scanStep tindex start pair strict lr status active tr =
      .cont tr2 lr2 st2 a2 ∧ lr2.data = lr.data ∧ lr.pos < lr2.pos ∧ lr2.pos ≤ lr.len ∧
      tr2.length_declared = tr.length_declared) := by
  rcases hv : read_vlq lr with ⟨res, lr1⟩
  have hf := read_vlq_facts lr
  rw [hv] at hf
  dsimp only at hf
  obtain ⟨hfd, hfp, hfb, hfl, hfo⟩ := hf
  cases res with
  | error e =>
    left
    simp only [scanStep, hv]
    exact ⟨_, _, rfl, hfd, hfl h, by simp⟩
  | ok v =>
    have hpos1 : lr.pos + 1 ≤ lr1.pos := hfo v rfl
    have hp1 : lr1.pos ≤ lr.len := hfl h
    have hlen1 : lr1.len = lr.len := Reader.len_eq_of_data_eq hfd
    by_cases hr0 : lr1.remaining = 0
    · left
      simp only [scanStep, hv, if_pos hr0]
      exact ⟨_, _, rfl, hfd, hp1, rfl⟩
    · have hle1 : lr1.pos + 1 ≤ lr1.len := by
        rw [Reader.remaining_def] at hr0
        omega
      simp only [scanStep, hv, if_neg hr0, Reader.read_eq hle1]
      by_cases hhigh : (List.take 1 (List.drop lr1.pos lr1.data)).headD 0 &&& 0x80 ≠ 0
      · rw [if_pos hhigh]
        have hdle : ({ lr1 with pos := lr1.pos + 1 } : Reader).pos ≤
            ({ lr1 with pos := lr1.pos + 1 } : Reader).len := hle1
        rcases scanDispatch_spec tindex start pair strict _ active tr
            ({ lr1 with pos := lr1.pos + 1 }) hdle with
          ⟨tr2, lr2, he, ⟨hRd, hRp, hRl⟩, hPd⟩ | ⟨tr2, lr2, st2, a2, he, ⟨hRd, hRp, hRl⟩, hPd⟩
        · left
          rw [he]
          refine ⟨_, _, rfl, by rw [hRd]; exact hfd, ?_, hPd⟩
          have : ({ lr1 with pos := lr1.pos + 1 } : Reader).len = lr.len := by
            rw [← hlen1]
            rfl
          omega
        · right
          rw [he]
          refine ⟨_, _, _, _, rfl, by rw [hRd]; exact hfd, ?_, ?_, hPd⟩
          · have : lr1.pos + 1 ≤ lr2.pos := hRp
            omega
          · have : ({ lr1 with pos := lr1.pos + 1 } : Reader).len = lr.len := by
              rw [← hlen1]
              rfl
            omega
      · rw [if_neg hhigh]
        cases status with
        | none =>
          left
          exact ⟨_, _, rfl, hfd, by simp; omega, by simp⟩
        | some s0 =>
          have hdle : ({ { lr1 with pos := lr1.pos + 1 } with
              pos := ({ lr1 with pos := lr1.pos + 1 } : Reader).pos - 1 } : Reader).pos ≤
              ({ { lr1 with pos := lr1.pos + 1 } with
              pos := ({ lr1 with pos := lr1.pos + 1 } : Reader).pos - 1 } : Reader).len := by
            show lr1.pos + 1 - 1 ≤ lr1.data.length
            have : lr1.len = lr1.data.length := rfl
            omega
          rcases scanDispatch_spec tindex start pair strict (some s0) active tr
              ({ { lr1 with pos := lr1.pos + 1 } with
                pos := ({ lr1 with pos := lr1.pos + 1 } : Reader).pos - 1 }) hdle with
            ⟨tr2, lr2, he, ⟨hRd, hRp, hRl⟩, hPd⟩ | ⟨tr2, lr2, st2, a2, he, ⟨hRd, hRp, hRl⟩, hPd⟩
          · left
            rw [he]
            refine ⟨_, _, rfl, by rw [hRd]; exact hfd, ?_, hPd⟩
            have hl' : ({ { lr1 with pos := lr1.pos + 1 } with
                pos := ({ lr1 with pos := lr1.pos + 1 } : Reader).pos - 1 } : Reader).len = lr.len := by
              rw [← hlen1]
              rfl
            omega
          · right
            rw [he]
            refine ⟨_, _, _, _, rfl, by rw [hRd]; exact hfd, ?_, ?_, hPd⟩
            · have hge : ({ { lr1 with pos := lr1.pos + 1 } with
                  pos := ({ lr1 with pos := lr1.pos + 1 } : Reader).pos - 1 } : Reader).pos ≤ lr2.pos := hRp
              have hsh : ({ { lr1 with pos := lr1.pos + 1 } with
                  pos := ({ lr1 with pos := lr1.pos + 1 } : Reader).pos - 1 } : Reader).pos = lr1.pos + 1 - 1 := rfl
              omega
            · have hl' : ({ { lr1 with pos := lr1.pos + 1 } with
                  pos := ({ lr1 with pos := lr1.pos + 1 } : Reader).pos - 1 } : Reader).len = lr.len := by
                rw [← hlen1]
                rfl
              omega
theorem scanEvents_fin (tindex start : Nat) (pair strict : Bool) :
    ∀ (fuel : Nat) (lr : Reader) (status : Option Nat) (active : Nat × Nat → Int)
      (tr : TrackReport),
      lr.pos ≤ lr.len → lr.len - lr.pos < fuel →
      ∃ tr2 lr2, scanEvents tindex start pair strict fuel lr status active tr = .fin tr2 lr2 ∧
        lr2.data = lr.data ∧ lr2.pos ≤ lr.len ∧ tr2.length_declared = tr.length_declared := by
  intro fuel
  induction fuel with
  | zero =>
    intro lr status active tr hp hf
    omega
  | succ fuel ih =>
    intro lr status active tr hp hf
    by_cases hr0 : lr.remaining = 0
    · simp only [scanEvents, if_pos hr0]
      exact ⟨_, _, rfl, rfl, hp, rfl⟩
    · rcases scanStep_spec tindex start pair strict lr status active tr hp with
        ⟨tr2, lr2, he, hRd, hRl, hPd⟩ | ⟨tr2, lr2, st2, a2, he, hRd, hRp, hRl, hPd⟩
      · simp only [scanEvents, if_neg hr0, he]
        exact ⟨_, _, rfl, hRd, hRl, hPd⟩
      · have hlen2 : lr2.len = lr.len := Reader.len_eq_of_data_eq hRd
        obtain ⟨tr3, lr3, he3, hd3, hl3, hp3⟩ := ih lr2 st2 a2 tr2 (by omega) (by omega)
        simp only [scanEvents, if_neg hr0, he, he3]
        exact ⟨_, _, rfl, by rw [hd3]; exact hRd, by omega, by rw [hp3]; exact hPd⟩
theorem scanEvents_fin_inv (tindex start : Nat) (pair strict : Bool) {fuel : Nat}
    {lr : Reader} {status : Option Nat} {active : Nat × Nat → Int} {tr tr2 : TrackReport}
    {lr2 : Reader} (hp : lr.pos ≤ lr.len) (hf : lr.len - lr.pos < fuel)
    (heq : scanEvents tindex start pair strict fuel lr status active tr = .fin tr2 lr2) :
    lr2.data = lr.data ∧ lr2.pos ≤ lr.len ∧ tr2.length_declared = tr.length_declared := by
  obtain ⟨tr3, lr3, hE, hd, hl, hpd⟩ := scanEvents_fin tindex start pair strict fuel lr status active tr hp hf
  rw [heq] at hE
  cases hE
  exact ⟨hd, hl, hpd⟩

theorem scanEvents_no_esc (tindex start : Nat) (pair strict : Bool) {fuel : Nat}
    {lr : Reader} {status : Option Nat} {active : Nat × Nat → Int} {tr tr2 : TrackReport}
    {e : String} (hp : lr.pos ≤ lr.len) (hf : lr.len - lr.pos < fuel)
    (heq : scanEvents tindex start pair strict fuel lr status active tr = .esc tr2 e) :
    False := by
  obtain ⟨tr3, lr3, hE, -, -, -⟩ := scanEvents_fin tindex start pair strict fuel lr status active tr hp hf
  rw [heq] at hE
  cases hE

/-- Claim C9 (amended): for every track whose End-of-Track meta event is
never seen, `has_end_of_track` is `false` and the report contains at
least one error (not necessarily exactly one — other faults in the same
track contribute further errors); `length_parsed` never exceeds the
declared length, reporting only bytes actually consumed inside the
chunk. -/
theorem claim_C9_missing_eot (r : Reader) (tindex : Nat) (rep : FileReport) (pair strict : Bool) :
    ((parse_track r tindex rep pair strict).1.has_end_of_track = false →
      1 ≤ (parse_track r tindex rep pair strict).1.errors.length) ∧
    (parse_track r tindex rep pair strict).1.length_parsed ≤
      (parse_track r tindex rep pair strict).1.length_declared := by
  unfold parse_track
  rcases h4 : r.read 4 with e | ⟨tag, r1⟩
  · simp
  · by_cases htag : tag ≠ MAGIC_MTRK
    · simp only [h4, if_pos htag]
      simp
    · simp only [h4, if_neg htag]
      rcases h8 : r1.read 4 with e | ⟨lb, r2⟩
      · simp
      · simp only [h8]
        by_cases hcl : r2.pos + read_uint32_be lb > r2.len
        · rw [if_pos hcl]
          split
          · rename_i tr3 e heq
            exact absurd (scanEvents_no_esc tindex r2.pos pair strict (Nat.zero_le _)
              (by simp) heq) (by simp)
          · rename_i tr3 lr2 heq
            obtain ⟨hd3, hl3, hpd3⟩ := scanEvents_fin_inv tindex r2.pos pair strict (Nat.zero_le _)
              (by simp) heq
            have hl3' : lr2.pos ≤ ((r2.data.drop r2.pos).take (r2.len - r2.pos)).length := hl3
            have hpd3' : tr3.length_declared = read_uint32_be lb := by simpa using hpd3
            have hll : r2.len = r2.data.length := rfl
            have hchl : ((r2.data.drop r2.pos).take (r2.len - r2.pos)).length ≤ read_uint32_be lb := by
              simp [List.length_take, List.length_drop]
              omega
            split_ifs <;> simp_all <;> omega
        · rw [if_neg hcl]
          split
          · rename_i tr3 e heq
            exact absurd (scanEvents_no_esc tindex r2.pos pair strict (Nat.zero_le _)
              (by simp) heq) (by simp)
          · rename_i tr3 lr2 heq
            obtain ⟨hd3, hl3, hpd3⟩ := scanEvents_fin_inv tindex r2.pos pair strict (Nat.zero_le _)
              (by simp) heq
            have hl3' : lr2.pos ≤
              ((r2.data.drop r2.pos).take (r2.pos + read_uint32_be lb - r2.pos)).length := hl3
            have hpd3' : tr3.length_declared = read_uint32_be lb := by simpa using hpd3
            have hll : r2.len = r2.data.length := rfl
            have hchl : ((r2.data.drop r2.pos).take (r2.pos + read_uint32_be lb - r2.pos)).length ≤
                read_uint32_be lb := by
              simp [List.length_take, List.length_drop]
            split_ifs <;> simp_all

/-- Witness for C9 (amended): the empty input, whose track read fails
immediately, still reports no End-of-Track and one error. -/
theorem claim_C9_missing_eot_witness :
    1 ≤ (parse_track ⟨[], 0⟩ 0 emptyReport false false).1.errors.length ∧
    (parse_track ⟨[], 0⟩ 0 emptyReport false false).1.length_parsed ≤
      (parse_track ⟨[], 0⟩ 0 emptyReport false false).1.length_declared :=
  ⟨(claim_C9_missing_eot ⟨[], 0⟩ 0 emptyReport false false).1 (by decide),
   (claim_C9_missing_eot ⟨[], 0⟩ 0 emptyReport false false).2⟩

/-- Counterexample to C9 as stated: the track chunk
`4D 54 72 6B 00 00 00 03 | 00 F1 00` never sees an End-of-Track event
(`has_end_of_track = false`) yet its report carries two errors (the
unknown status byte `0xF1` and the missing End-of-Track), not exactly
one. -/
theorem claim_C9_counterexample :
    (parse_track ⟨[77, 84, 114, 107, 0, 0, 0, 3, 0, 241, 0], 0⟩ 0 emptyReport
      false false).1.has_end_of_track = false ∧
    (parse_track ⟨[77, 84, 114, 107, 0, 0, 0, 3, 0, 241, 0], 0⟩ 0 emptyReport
      false false).1.errors.length = 2 := by
  decide
/-- Claim C10 (amended): for every track chunk — the `MTrk` tag and the
4-byte declared length are readable at the cursor — the per-track
decoder leaves the outer cursor at the track's declared end clamped to
the end of the buffer, `min (start + declared) len`, regardless of how
the scan ended, so the next track starts at the correct offset; the
declared length is recorded, and `length_parsed` never exceeds either
the declared length or the bytes available in the chunk. -/
theorem claim_C10_cursor (r : Reader) (tindex : Nat) (rep : FileReport) (pair strict : Bool)
    (tag lb : List Nat) (r1 r2 : Reader)
    (h4 : r.read 4 = .ok (tag, r1)) (htag : tag = MAGIC_MTRK)
    (h8 : r1.read 4 = .ok (lb, r2)) :
    (parse_track r tindex rep pair strict).2.pos = min (r2.pos + read_uint32_be lb) r.len ∧
    (parse_track r tindex rep pair strict).2.data = r.data ∧
    (parse_track r tindex rep pair strict).1.length_declared = read_uint32_be lb ∧
    (parse_track r tindex rep pair strict).1.length_parsed ≤
      min (read_uint32_be lb) (r.len - r2.pos) := by
  obtain ⟨h4le, -, h4eq⟩ := Reader.of_read_ok h4
  obtain ⟨h8le, -, h8eq⟩ := Reader.of_read_ok h8
  have hd2 : r2.data = r.data := by
    rw [h8eq, h4eq]
  have hlen2 : r2.len = r.len := Reader.len_eq_of_data_eq hd2
  have hll : r2.len = r2.data.length := rfl
  have hp2 : r2.pos ≤ r2.len := by
    rw [h8eq, h4eq] at *
    simp at *
    omega
  unfold parse_track
  simp only [h4, if_neg (show ¬ tag ≠ MAGIC_MTRK by simp [htag]), h8]
  by_cases hcl : r2.pos + read_uint32_be lb > r2.len
  · rw [if_pos hcl]
    split
    · rename_i tr3 e heq
      exact absurd (scanEvents_no_esc tindex r2.pos pair strict (Nat.zero_le _)
        (by simp) heq) (by simp)
    · rename_i tr3 lr2 heq
      obtain ⟨hd3, hl3, hpd3⟩ := scanEvents_fin_inv tindex r2.pos pair strict (Nat.zero_le _)
        (by simp) heq
      have hl3' : lr2.pos ≤ ((r2.data.drop r2.pos).take (r2.len - r2.pos)).length := hl3
      have hpd3' : tr3.length_declared = read_uint32_be lb := by simpa using hpd3
      have hchl : ((r2.data.drop r2.pos).take (r2.len - r2.pos)).length = r2.len - r2.pos := by
        simp [List.length_take, List.length_drop]
        omega
      split_ifs <;> simp_all <;> omega
  · rw [if_neg hcl]
    split
    · rename_i tr3 e heq
      exact absurd (scanEvents_no_esc tindex r2.pos pair strict (Nat.zero_le _)
        (by simp) heq) (by simp)
    · rename_i tr3 lr2 heq
      obtain ⟨hd3, hl3, hpd3⟩ := scanEvents_fin_inv tindex r2.pos pair strict (Nat.zero_le _)
        (by simp) heq
      have hl3' : lr2.pos ≤
          ((r2.data.drop r2.pos).take (r2.pos + read_uint32_be lb - r2.pos)).length := hl3
      have hpd3' : tr3.length_declared = read_uint32_be lb := by simpa using hpd3
      have hchl : ((r2.data.drop r2.pos).take (r2.pos + read_uint32_be lb - r2.pos)).length =
          read_uint32_be lb := by
        simp [List.length_take, List.length_drop]
        omega
      split_ifs <;> simp_all

/-- Witness for C10 (amended): a well-formed single track whose declared
length fits in the buffer; the cursor ends exactly at the declared end. -/
theorem claim_C10_cursor_witness :
    (parse_track ⟨[77, 84, 114, 107, 0, 0, 0, 4, 0, 255, 47, 0], 0⟩ 0 emptyReport
      false false).2.pos = min (8 + read_uint32_be [0, 0, 0, 4]) 12 ∧
    (parse_track ⟨[77, 84, 114, 107, 0, 0, 0, 4, 0, 255, 47, 0], 0⟩ 0 emptyReport
      false false).2.data = [77, 84, 114, 107, 0, 0, 0, 4, 0, 255, 47, 0] ∧
    (parse_track ⟨[77, 84, 114, 107, 0, 0, 0, 4, 0, 255, 47, 0], 0⟩ 0 emptyReport
      false false).1.length_declared = read_uint32_be [0, 0, 0, 4] ∧
    (parse_track ⟨[77, 84, 114, 107, 0, 0, 0, 4, 0, 255, 47, 0], 0⟩ 0 emptyReport
      false false).1.length_parsed ≤ min (read_uint32_be [0, 0, 0, 4]) (12 - 8) :=
  claim_C10_cursor ⟨[77, 84, 114, 107, 0, 0, 0, 4, 0, 255, 47, 0], 0⟩ 0 emptyReport
    false false [77, 84, 114, 107] [0, 0, 0, 4]
    ⟨[77, 84, 114, 107, 0, 0, 0, 4, 0, 255, 47, 0], 4⟩
    ⟨[77, 84, 114, 107, 0, 0, 0, 4, 0, 255, 47, 0], 8⟩ rfl rfl rfl

/-- Counterexample to C10 as stated: a track declaring 100 bytes in a
9-byte file.  The outer cursor ends at offset 9 (the clamped end of the
buffer), not at the track's declared end `8 + 100`. -/
theorem claim_C10_counterexample :
    (parse_track ⟨[77, 84, 114, 107, 0, 0, 0, 100, 0], 0⟩ 0 emptyReport
      false false).1.length_declared = 100 ∧
    (parse_track ⟨[77, 84, 114, 107, 0, 0, 0, 100, 0], 0⟩ 0 emptyReport
      false false).2.pos = 9 ∧
    (parse_track ⟨[77, 84, 114, 107, 0, 0, 0, 100, 0], 0⟩ 0 emptyReport
      false false).2.pos ≠
      8 + (parse_track ⟨[77, 84, 114, 107, 0, 0, 0, 100, 0], 0⟩ 0 emptyReport
        false false).1.length_declared := by
  decide
